import Mathlib

/-!
Verification of the buffer/memory abstraction layer of `src/core/buffer.h`
(Open Image Denoise core). The header declares the `Buffer` contract, the
`MappedBuffer` and `USMBuffer` backing strategies and the `Memory` dependent
view base. Only the header is available: the out-of-line method bodies
(`buffer.cpp`) are modelled from the specification where noted by a
`Modelled from the spec:` doc comment; everything else is embedded directly
from the inline bodies in the header.

Pointers are modelled as natural-number addresses with `0` playing the role
of `nullptr`. Buffer contents are modelled as lists of bytes; the
`unordered_map` of outstanding mapped regions is modelled as an association
list keyed by the host address returned by `map`.
-/

namespace OIDNBuf

/-- Access modes for mapping buffers (src/core/buffer.h, `enum class Access`). -/
inductive Access where
  | Read
  | Write
  | ReadWrite
  | WriteDiscard
deriving DecidableEq, Repr

/-- Synchronization modes (consumed, not defined, by the header). -/
inductive SyncMode where
  | Sync
  | Async
deriving DecidableEq, Repr

/-- Storage classes (consumed, not defined, by the header). -/
inductive Storage where
  | Undefined
  | Host
  | Device
  | Managed
deriving DecidableEq, Repr

/-- Error taxonomy of the spec (§7): out-of-bounds, invalid argument,
allocation failure. -/
inductive Err where
  | OutOfBounds
  | InvalidArgument
  | AllocationFailure
deriving DecidableEq, Repr

/-- Overwrite the bytes of `c` starting at `off` with `src`
(the byte-level effect of a host-to-buffer copy). -/
def writeBytes (c : List UInt8) (off : Nat) (src : List UInt8) : List UInt8 :=
  c.take off ++ src ++ c.drop (off + src.length)

/-- The bytes of `c` in the window `[off, off+n)`
(the byte-level effect of a buffer-to-host copy). -/
def readBytes (c : List UInt8) (off n : Nat) : List UInt8 :=
  (c.drop off).take n

theorem writeBytes_length (c : List UInt8) (off : Nat) (src : List UInt8)
    (h : off + src.length ≤ c.length) : (writeBytes c off src).length = c.length := by
  simp [writeBytes]
  omega

theorem readBytes_writeBytes (c : List UInt8) (off : Nat) (src : List UInt8)
    (h : off + src.length ≤ c.length) :
    readBytes (writeBytes c off src) off src.length = src := by
  have hoff : off ≤ c.length := by omega
  simp [readBytes, writeBytes, List.drop_append_eq_append_drop, List.length_take,
    Nat.min_eq_left hoff]

/-- One entry of the outstanding-mapping table
(src/core/buffer.h, `USMBuffer::MappedRegion`): the device-side address, the
mapped byte range, the access mode, and — modelling the host memory at the
returned address — the staged bytes currently visible through the mapping. -/
structure MappedRegion where
  devPtr : Nat
  byteOffset : Nat
  byteSize : Nat
  access : Access
  staged : List UInt8
deriving DecidableEq, Repr

/-- State of a `USMBuffer` (src/core/buffer.h lines 96-138): current address
(`0` models `nullptr`), logical contents (whose length is the byte size), the
owned/borrowed flag `shared`, the storage class, the outstanding-mapping
table keyed by returned host address, and an allocator counter supplying
fresh host addresses for staged mappings. -/
structure USMBufferState where
  ptr : Nat
  content : List UInt8
  shared : Bool
  storage : Storage
  mappedRegions : List (Nat × MappedRegion)
  nextHostAddr : Nat
deriving DecidableEq, Repr

namespace USMBuffer

/-- Embeds `USMBuffer::getByteSize` (header, inline): the current byte size. -/
def getByteSize (s : USMBufferState) : Nat := s.content.length

/-- Embeds `USMBuffer::hasPtr` (header, inline): `return true;`. -/
def hasPtr (_ : USMBufferState) : Bool := true

/-- Embeds `USMBuffer::getPtr` (header, inline): `return ptr;`. -/
def getPtr (s : USMBufferState) : Nat := s.ptr

/-- Embeds `USMBuffer::getStorage` (header, inline): `return storage;`. -/
def getStorage (s : USMBufferState) : Storage := s.storage

/-- Modelled from the spec: `USMBuffer::read` (body not under src/). Fails
with OutOfBounds if offset+size exceeds the current byte size; otherwise
copies the requested window to the host. With a direct address the copy is
immediate regardless of the sync mode; the async engine path yields the same
bytes once the synchronization point is reached, so both modes are modelled
by the completed copy. -/
def read (s : USMBufferState) (byteOffset byteSize : Nat) (_sync : SyncMode) :
    Except Err (List UInt8) :=
  if getByteSize s < byteOffset + byteSize then .error .OutOfBounds
  else .ok (readBytes s.content byteOffset byteSize)

/-- Modelled from the spec: `USMBuffer::write` (body not under src/). Fails
with OutOfBounds if offset+size exceeds the current byte size; otherwise
copies `src` into the buffer at the offset (size = `src.length`). -/
def write (s : USMBufferState) (byteOffset : Nat) (src : List UInt8) (_sync : SyncMode) :
    Except Err USMBufferState :=
  if getByteSize s < byteOffset + src.length then .error .OutOfBounds
  else .ok { s with content := writeBytes s.content byteOffset src }

/-- Modelled from the spec: `USMBuffer::map` (body not under src/). Fails
with OutOfBounds if the window exceeds the buffer; otherwise opens a
host-visible window at a fresh host address, staging a copy of the window
(no input copy for WriteDiscard), and inserts one entry into the
outstanding-mapping table keyed by the returned address. -/
def map (s : USMBufferState) (byteOffset byteSize : Nat) (access : Access) :
    Except Err (Nat × USMBufferState) :=
  if getByteSize s < byteOffset + byteSize then .error .OutOfBounds
  else
    let hostPtr := s.nextHostAddr
    let staged := if access = Access.WriteDiscard then List.replicate byteSize 0
                  else readBytes s.content byteOffset byteSize
    .ok (hostPtr,
      { s with
        mappedRegions :=
          (hostPtr,
            { devPtr := s.ptr + byteOffset, byteOffset := byteOffset,
              byteSize := byteSize, access := access, staged := staged }) :: s.mappedRegions
        nextHostAddr := s.nextHostAddr + 1 })

/-- The client storing `bytes` through the host address `hostPtr` of an
outstanding mapping: updates the staged window of that table entry. -/
def writeMapped (s : USMBufferState) (hostPtr : Nat) (bytes : List UInt8) : USMBufferState :=
  { s with
    mappedRegions := s.mappedRegions.map (fun e =>
      if e.1 = hostPtr then (e.1, { e.2 with staged := bytes }) else e) }

/-- Modelled from the spec: `USMBuffer::unmap` (body not under src/). Looks
the address up in the outstanding-mapping table; on miss fails with
InvalidArgument. On hit, for every access mode except Read writes the staged
bytes back to the canonical storage, and removes the entry. -/
def unmap (s : USMBufferState) (hostPtr : Nat) : Except Err USMBufferState :=
  match s.mappedRegions.lookup hostPtr with
  | none => .error .InvalidArgument
  | some region =>
      let content' := if region.access = Access.Read then s.content
                      else writeBytes s.content region.byteOffset region.staged
      .ok { s with
            content := content'
            mappedRegions := s.mappedRegions.filter (fun e => e.1 != hostPtr) }

/-- Modelled from the spec: `USMBuffer::unmapAll` (body not under src/).
Forcibly releases every outstanding mapping — writing staged bytes back for
every non-Read mapping — leaving the table empty. -/
def unmapAll (s : USMBufferState) : USMBufferState :=
  { s with
    content := s.mappedRegions.foldr
      (fun e c => if e.2.access = Access.Read then c
                  else writeBytes c e.2.byteOffset e.2.staged) s.content
    mappedRegions := [] }

/-- Modelled from the spec: `USMBuffer::realloc` (body not under src/).
Requests the new allocation first — the old allocation is not released until
the new one is confirmed, so a failed allocation leaves the buffer in its
previous valid state. On success, forces release of all outstanding
mappings, replaces the storage with the fresh allocation (contents
discarded), and the buffer owns the new allocation. The engine allocator is
modelled by `newPtr?` (`none` = allocation failure). -/
def realloc (s : USMBufferState) (newByteSize : Nat) (newPtr? : Option Nat) :
    Except Err Unit × USMBufferState :=
  match newPtr? with
  | none => (.error .AllocationFailure, s)
  | some newPtr =>
      let s1 := unmapAll s
      (.ok (),
        { s1 with
          ptr := newPtr
          content := List.replicate newByteSize 0
          shared := false })

/-- Modelled from the spec: `~USMBuffer` (body not under src/). Forces
release of all outstanding mappings, then frees the storage exactly when the
buffer owns it (`shared = false`); a borrowed buffer never frees its
externally supplied address. Returns the list of device addresses freed. -/
def destroy (s : USMBufferState) : List Nat :=
  let s1 := unmapAll s
  if s1.shared then [] else [s1.ptr]

end USMBuffer

/-- State of a `MappedBuffer` (src/core/buffer.h lines 72-89): the host
address obtained by mapping the source buffer, and the window byte size. The
strong reference to the source buffer is modelled by threading the source's
state explicitly. -/
structure MappedBufferState where
  ptr : Nat
  byteSize : Nat
deriving DecidableEq, Repr

namespace MappedBuffer

/-- Embeds `MappedBuffer::hasPtr` (header, inline): `return true;`. -/
def hasPtr (_ : MappedBufferState) : Bool := true

/-- Embeds `MappedBuffer::getPtr` (header, inline): `return ptr;`. -/
def getPtr (m : MappedBufferState) : Nat := m.ptr

/-- Embeds `MappedBuffer::getByteSize` (header, inline): `return byteSize;`. -/
def getByteSize (m : MappedBufferState) : Nat := m.byteSize

/-- Embeds `MappedBuffer::getStorage` (header, inline): `return Storage::Host;`. -/
def getStorage (_ : MappedBufferState) : Storage := Storage.Host

/-- Modelled from the spec: the `MappedBuffer` constructor (body not under
src/). Performs the source buffer's map operation and records the resulting
address and window size. -/
def create (s : USMBufferState) (byteOffset byteSize : Nat) (access : Access) :
    Except Err (MappedBufferState × USMBufferState) :=
  match USMBuffer.map s byteOffset byteSize access with
  | .error e => .error e
  | .ok (hostPtr, s') => .ok ({ ptr := hostPtr, byteSize := byteSize }, s')

/-- Modelled from the spec: `~MappedBuffer` (body not under src/). Performs
the matching unmap of the recorded address on the source buffer exactly
once, unconditionally, on every exit path. -/
def destroy (m : MappedBufferState) (s : USMBufferState) : Except Err USMBufferState :=
  USMBuffer.unmap s m.ptr

end MappedBuffer

/-- State of a `Memory` dependent view (src/core/buffer.h lines 145-172): a
byte offset in the backing buffer and — modelled from the spec — the cached
address the concrete dependent recomputes on `updatePtr`. -/
structure MemoryView where
  byteOffset : Nat
  cachedPtr : Nat
deriving DecidableEq, Repr

namespace MemoryView

/-- Modelled from the spec: `Memory::updatePtr` (pure virtual in the
header). Every concrete dependent recomputes its cached address as the
buffer's current address plus its own byte offset. -/
def updatePtr (bufPtr : Nat) (m : MemoryView) : MemoryView :=
  { m with cachedPtr := bufPtr + m.byteOffset }

end MemoryView

namespace Buffer

/-- Embeds `Buffer::attach` (header, line 63): the body is empty — the base buffer
records nothing about the attaching dependent, and neither `MappedBuffer`
nor `USMBuffer` overrides it. -/
def attach (s : USMBufferState) (_mem : MemoryView) : USMBufferState := s

/-- Embeds `Buffer::detach` (header, line 64): the body is empty, and neither
`MappedBuffer` nor `USMBuffer` overrides it. -/
def detach (s : USMBufferState) (_mem : MemoryView) : USMBufferState := s

/-- Embeds `Buffer::attach` as inherited by `MappedBuffer` (no override in the
header): empty body. -/
def attachMapped (m : MappedBufferState) (_mem : MemoryView) : MappedBufferState := m

/-- Embeds `Buffer::detach` as inherited by `MappedBuffer` (no override in the
header): empty body. -/
def detachMapped (m : MappedBufferState) (_mem : MemoryView) : MappedBufferState := m

/-- Modelled from the spec: the `newTensor`/`newImage` view constructors
(bodies not under src/). Build a dependent view rooted at a byte offset;
fail with OutOfBounds if the view's footprint would exceed the buffer's
current size. -/
def newView (s : USMBufferState) (byteOffset footprint : Nat) :
    Except Err MemoryView :=
  if USMBuffer.getByteSize s < byteOffset + footprint then .error .OutOfBounds
  else .ok { byteOffset := byteOffset, cachedPtr := s.ptr + byteOffset }

end Buffer

namespace USMBuffer

/-- Modelled from the spec: the allocating `USMBuffer` constructor
(`USMBuffer(engine, byteSize, storage)`, body not under src/): requests an
allocation from the engine and owns it (`shared = false`). -/
def construct (allocPtr byteSize : Nat) (storage : Storage) : USMBufferState :=
  { ptr := allocPtr, content := List.replicate byteSize 0, shared := false,
    storage := storage, mappedRegions := [], nextHostAddr := allocPtr + byteSize + 1 }

/-- Modelled from the spec: the wrapping `USMBuffer` constructor
(`USMBuffer(engine, data, byteSize, storage)`, body not under src/): borrows
the externally supplied address (`shared = true`), never freeing it. -/
def constructShared (data : Nat) (contents : List UInt8) (storage : Storage) : USMBufferState :=
  { ptr := data, content := contents, shared := true,
    storage := storage, mappedRegions := [], nextHostAddr := data + contents.length + 1 }

end USMBuffer

namespace Memory

/-- Embeds `Memory::Memory(buffer, byteOffset)` (header, inline, lines 150-155):
records the buffer reference and offset and calls `buffer->attach(this)`;
returns the constructed view together with the buffer state after `attach`. -/
def construct (s : USMBufferState) (byteOffset cached : Nat) :
    MemoryView × USMBufferState :=
  let m : MemoryView := { byteOffset := byteOffset, cachedPtr := cached }
  (m, Buffer.attach s m)

/-- Embeds `Memory::~Memory` (header, inline, lines 157-161): calls
`buffer->detach(this)` when a buffer is present. -/
def destruct (s : USMBufferState) (m : MemoryView) : USMBufferState :=
  Buffer.detach s m

end Memory

/-- Modelled from the spec: a buffer together with its non-owning registry
of attached dependents (spec §3: the Buffer holds back-references to every
attached dependent so reallocation can notify them). -/
structure AttachedBuffer where
  buf : USMBufferState
  deps : List MemoryView
deriving DecidableEq, Repr

namespace AttachedBuffer

/-- Modelled from the spec: `realloc` at the level of the dependent
registry (spec §4.1): replace the storage, then invoke every currently
attached dependent's `updatePtr` before returning, so no dependent observes
a stale address. On allocation failure the buffer and its dependents are
left untouched. -/
def realloc (b : AttachedBuffer) (newByteSize : Nat) (newPtr? : Option Nat) :
    Except Err Unit × AttachedBuffer :=
  match USMBuffer.realloc b.buf newByteSize newPtr? with
  | (.ok _, s') => (.ok (), { buf := s', deps := b.deps.map (MemoryView.updatePtr s'.ptr) })
  | (.error e, s') => (.error e, { b with buf := s' })

end AttachedBuffer

/-!  Theorems. -/

/-- A small concrete buffer state used by the witnesses. -/
def sampleBuf : USMBufferState :=
  { ptr := 100, content := [1, 2, 3, 4, 5, 6, 7, 8], shared := false,
    storage := Storage.Managed, mappedRegions := [], nextHostAddr := 1000 }

/-- C2: for every sized operation (read, write, map, mapped-window
construction, view construction) on a buffer, and for all offset and size
with offset+size exceeding the buffer's current byte size, the operation
fails with OutOfBounds and performs no copy or mapping (the error carries no
new state). -/
theorem sized_ops_out_of_bounds (s : USMBufferState) (off n : Nat) (src : List UInt8)
    (sync : SyncMode) (access : Access)
    (hn : src.length = n)
    (h : USMBuffer.getByteSize s < off + n) :
    USMBuffer.read s off n sync = .error .OutOfBounds ∧
    USMBuffer.write s off src sync = .error .OutOfBounds ∧
    USMBuffer.map s off n access = .error .OutOfBounds ∧
    MappedBuffer.create s off n access = .error .OutOfBounds ∧
    Buffer.newView s off n = .error .OutOfBounds := by
  subst hn
  simp [USMBuffer.read, USMBuffer.write, USMBuffer.map, MappedBuffer.create,
    Buffer.newView, h]

/-- Witness for C2 at a concrete out-of-bounds request: offset 6, size 4 on
an 8-byte buffer. -/
theorem sized_ops_out_of_bounds_witness :
    USMBuffer.read sampleBuf 6 4 SyncMode.Sync = .error .OutOfBounds ∧
    USMBuffer.write sampleBuf 6 [9, 9, 9, 9] SyncMode.Sync = .error .OutOfBounds ∧
    USMBuffer.map sampleBuf 6 4 Access.Read = .error .OutOfBounds ∧
    MappedBuffer.create sampleBuf 6 4 Access.Read = .error .OutOfBounds ∧
    Buffer.newView sampleBuf 6 4 = .error .OutOfBounds :=
  sized_ops_out_of_bounds sampleBuf 6 4 [9, 9, 9, 9] SyncMode.Sync Access.Read
    (by decide) (by decide)

/-- C4: for every buffer state, every in-bounds write followed by a read of
the same range yields bytes identical to the source, for every pairing of
synchronization modes (the storage class is arbitrary in the state). -/
theorem write_read_roundtrip (s s' : USMBufferState) (off : Nat) (src : List UInt8)
    (sync1 sync2 : SyncMode)
    (h : USMBuffer.write s off src sync1 = .ok s') :
    USMBuffer.read s' off src.length sync2 = .ok src := by
  unfold USMBuffer.write at h
  split at h
  · simp at h
  · rename_i hlt
    simp only [Except.ok.injEq] at h
    subst h
    have hlen : off + src.length ≤ s.content.length := by
      simpa [USMBuffer.getByteSize] using Nat.le_of_not_lt hlt
    have hsz : USMBuffer.getByteSize { s with content := writeBytes s.content off src }
        = s.content.length := writeBytes_length s.content off src hlen
    unfold USMBuffer.read
    rw [if_neg (by rw [hsz]; exact Nat.not_lt.mpr hlen)]
    simp [readBytes_writeBytes s.content off src hlen]

/-- Witness for C4: write [9, 8, 7] at offset 2 of the sample buffer
(Async), then read it back (Sync). -/
theorem write_read_roundtrip_witness :
    USMBuffer.read
      { sampleBuf with content := [1, 2, 9, 8, 7, 6, 7, 8] } 2 3 SyncMode.Sync
      = .ok [9, 8, 7] :=
  write_read_roundtrip sampleBuf _ 2 [9, 8, 7] SyncMode.Async SyncMode.Sync rfl

/-- C8: if `realloc` fails with AllocationFailure, the buffer is left in its
previous valid state — same address, byte size, contents, ownership flag and
storage class (the whole state is unchanged) — and, at the level of the
dependent registry, the dependents are untouched as well. -/
theorem realloc_failure_preserves_state (s : USMBufferState) (ds : List MemoryView)
    (n : Nat) (r : Except Err Unit) (s' : USMBufferState)
    (h : USMBuffer.realloc s n none = (r, s')) :
    r = .error .AllocationFailure ∧ s' = s ∧
    AttachedBuffer.realloc ⟨s, ds⟩ n none = (.error .AllocationFailure, ⟨s, ds⟩) := by
  unfold USMBuffer.realloc at h
  obtain ⟨rfl, rfl⟩ := Prod.mk.injEq .. ▸ h
  exact ⟨rfl, rfl, rfl⟩

/-- Witness for C8: a failing reallocation of the sample buffer. -/
theorem realloc_failure_preserves_state_witness :
    (Except.error Err.AllocationFailure : Except Err Unit) = .error .AllocationFailure ∧
    sampleBuf = sampleBuf ∧
    AttachedBuffer.realloc ⟨sampleBuf, []⟩ 16 none
      = (.error .AllocationFailure, ⟨sampleBuf, []⟩) :=
  realloc_failure_preserves_state sampleBuf [] 16 _ sampleBuf rfl

/-- C9: destruction frees the underlying allocation if and only if the
buffer owns it: the freed-address list is empty exactly when the buffer is
borrowed; a buffer built by the wrapping constructor never frees the
externally supplied address, and one built by the allocating constructor
always frees its storage. -/
theorem destroy_frees_iff_owned (s : USMBufferState) (d p n : Nat)
    (c : List UInt8) (st st' : Storage) :
    (USMBuffer.destroy s = [] ↔ s.shared = true) ∧
    (USMBuffer.destroy s = [s.ptr] ↔ s.shared = false) ∧
    USMBuffer.destroy (USMBuffer.constructShared d c st) = [] ∧
    USMBuffer.destroy (USMBuffer.construct p n st') = [p] := by
  refine ⟨?_, ?_, rfl, rfl⟩ <;>
    cases hs : s.shared <;> simp [USMBuffer.destroy, USMBuffer.unmapAll, hs]

/-- Modelled from the spec: a device-only USM buffer state with no shared
view — the spec allows the current address to be null (modelled as 0). -/
def deviceOnlyBuf : USMBufferState :=
  { ptr := 0, content := List.replicate 16 0, shared := false,
    storage := Storage.Device, mappedRegions := [], nextHostAddr := 1 }

/-- C5 counterexample: on a device-only USM buffer state with a null
address, `hasPtr` is true (the header returns `true` unconditionally) yet
`getPtr` is null, so "a non-null address is obtainable via getPtr iff
hasPtr is true" is false. -/
theorem hasPtr_getPtr_iff_fails :
    ¬ ((USMBuffer.getPtr deviceOnlyBuf ≠ 0) ↔ (USMBuffer.hasPtr deviceOnlyBuf = true)) := by
  decide

/-- C5 amended: for every buffer in this header the addressability flag is
always true and `getPtr` returns the stored address — which the spec allows
to be null for device-only storage, so `hasPtr = true` does not imply the
address is non-null. -/
theorem hasPtr_always_true_getPtr_stored :
    (∀ s : USMBufferState, USMBuffer.hasPtr s = true ∧ USMBuffer.getPtr s = s.ptr) ∧
    (∀ m : MappedBufferState, MappedBuffer.hasPtr m = true ∧ MappedBuffer.getPtr m = m.ptr) ∧
    (∃ s : USMBufferState, USMBuffer.getStorage s = Storage.Device ∧
      USMBuffer.hasPtr s = true ∧ USMBuffer.getPtr s = 0) :=
  ⟨fun _ => ⟨rfl, rfl⟩, fun _ => ⟨rfl, rfl⟩, deviceOnlyBuf, rfl, rfl, rfl⟩

/-- C1: a successful `realloc` invokes the resynchronization operation of
every currently attached dependent before returning — the new registry is
exactly the old one with `updatePtr` applied to each entry — and afterwards
each dependent's recomputed address equals the buffer's new address plus
that dependent's own byte offset. -/
theorem realloc_updates_all_dependents (b b' : AttachedBuffer) (newByteSize newPtr : Nat)
    (r : Except Err Unit)
    (h : AttachedBuffer.realloc b newByteSize (some newPtr) = (r, b')) :
    r = .ok () ∧
    b'.buf.ptr = newPtr ∧
    b'.deps = b.deps.map (MemoryView.updatePtr b'.buf.ptr) ∧
    b'.deps.length = b.deps.length ∧
    ∀ d ∈ b'.deps, d.cachedPtr = b'.buf.ptr + d.byteOffset := by
  unfold AttachedBuffer.realloc USMBuffer.realloc at h
  obtain ⟨rfl, rfl⟩ := Prod.mk.injEq .. ▸ h
  refine ⟨rfl, rfl, rfl, by simp, ?_⟩
  intro d hd
  simp only [List.mem_map] at hd
  obtain ⟨d0, _, rfl⟩ := hd
  simp [MemoryView.updatePtr]

/-- Dependents at offsets 0 and 5 used by the C1 witness
(the spec's dependent-consistency scenario with K = 5). -/
def wDeps : List MemoryView := [⟨0, 0⟩, ⟨5, 0⟩]

/-- The concrete result of reallocating the sample buffer (two dependents
attached) to 16 bytes at new address 200. -/
def wReallocB : AttachedBuffer :=
  { buf := { ptr := 200, content := List.replicate 16 0, shared := false,
             storage := Storage.Managed, mappedRegions := [], nextHostAddr := 1000 },
    deps := [⟨0, 200⟩, ⟨5, 205⟩] }

/-- Witness for C1: reallocating the sample buffer with dependents at
offsets 0 and 5 to a new address updates both cached addresses. -/
theorem realloc_updates_all_dependents_witness :
    (Except.ok () : Except Err Unit) = .ok () ∧
    wReallocB.buf.ptr = 200 ∧
    wReallocB.deps = wDeps.map (MemoryView.updatePtr wReallocB.buf.ptr) ∧
    wReallocB.deps.length = wDeps.length ∧
    ∀ d ∈ wReallocB.deps, d.cachedPtr = wReallocB.buf.ptr + d.byteOffset :=
  realloc_updates_all_dependents ⟨sampleBuf, wDeps⟩ wReallocB 16 200 (.ok ()) rfl

theorem lookup_filter_ne (l : List (Nat × MappedRegion)) (k : Nat) :
    (l.filter (fun e => e.1 != k)).lookup k = none := by
  induction l with
  | nil => rfl
  | cons e t ih =>
      obtain ⟨ek, ev⟩ := e
      by_cases h : ek = k
      · simpa [List.filter_cons, h] using ih
      · have hbe : (k == ek) = false := beq_false_of_ne (Ne.symm h)
        simp [List.filter_cons, h, List.lookup, hbe, ih]

/-- C3: `unmap` succeeds exactly when the address is a key of the
outstanding-mapping table; an address never returned by `map` (not in the
table) fails with InvalidArgument, and a second `unmap` of the same address
after a successful one also fails with InvalidArgument. -/
theorem unmap_succeeds_iff_outstanding (s : USMBufferState) (p : Nat) :
    ((∃ s', USMBuffer.unmap s p = .ok s') ↔ (s.mappedRegions.lookup p).isSome = true) ∧
    (s.mappedRegions.lookup p = none →
      USMBuffer.unmap s p = .error .InvalidArgument) ∧
    (∀ s', USMBuffer.unmap s p = .ok s' →
      USMBuffer.unmap s' p = .error .InvalidArgument) := by
  refine ⟨⟨?_, ?_⟩, ?_, ?_⟩
  · rintro ⟨s', h⟩
    unfold USMBuffer.unmap at h
    cases hl : s.mappedRegions.lookup p with
    | none => rw [hl] at h; simp at h
    | some r => simp [hl]
  · intro h
    cases hl : s.mappedRegions.lookup p with
    | none => rw [hl] at h; simp at h
    | some r => exact ⟨_, by unfold USMBuffer.unmap; rw [hl]⟩
  · intro h
    unfold USMBuffer.unmap
    rw [h]
  · intro s' h
    unfold USMBuffer.unmap at h
    cases hl : s.mappedRegions.lookup p with
    | none => rw [hl] at h; simp at h
    | some r =>
        rw [hl] at h
        simp only [Except.ok.injEq] at h
        subst h
        simp [USMBuffer.unmap, lookup_filter_ne]

/-- A sample buffer with one outstanding ReadWrite mapping at host address
1000 over bytes [0, 4). -/
def mappedSample : USMBufferState :=
  { sampleBuf with
    mappedRegions := [(1000,
      { devPtr := 100, byteOffset := 0, byteSize := 4,
        access := Access.ReadWrite, staged := [9, 9, 9, 9] })]
    nextHostAddr := 1001 }

/-- The concrete state after unmapping host address 1000 from
`mappedSample`: the staged bytes are written back and the table is empty. -/
def wUnmapped : USMBufferState :=
  { sampleBuf with content := [9, 9, 9, 9, 5, 6, 7, 8], nextHostAddr := 1001 }

/-- Witness for C3: unmapping the one outstanding address succeeds once and
fails with InvalidArgument the second time. -/
theorem unmap_succeeds_iff_outstanding_witness :
    USMBuffer.unmap mappedSample 1000 = .ok wUnmapped ∧
    USMBuffer.unmap wUnmapped 1000 = .error .InvalidArgument :=
  ⟨rfl, (unmap_succeeds_iff_outstanding mappedSample 1000).2.2 wUnmapped rfl⟩

theorem countP_filter_ne (l : List (Nat × MappedRegion)) (k : Nat) :
    (l.filter (fun e => e.1 != k)).countP (fun e => e.1 == k) = 0 := by
  rw [List.countP_eq_zero]
  intro e he
  simpa using (List.mem_filter.mp he).2

theorem filter_ne_eq_self (l : List (Nat × MappedRegion)) (k : Nat)
    (h : ∀ e ∈ l, e.1 ≠ k) : l.filter (fun e => e.1 != k) = l := by
  induction l with
  | nil => rfl
  | cons e t ih =>
      rw [List.filter_cons, if_pos (by simpa using h e (List.mem_cons_self e t)),
        ih (fun x hx => h x (List.mem_cons_of_mem e hx))]

theorem lookup_none_of_ne (l : List (Nat × MappedRegion)) (k : Nat)
    (h : ∀ e ∈ l, e.1 ≠ k) : l.lookup k = none := by
  have hf : l.lookup k = (l.filter (fun e => e.1 != k)).lookup k := by
    rw [filter_ne_eq_self l k h]
  rw [hf, lookup_filter_ne]

theorem writeMapped_keys_id (l : List (Nat × MappedRegion)) (p : Nat) (b : List UInt8)
    (h : ∀ e ∈ l, e.1 ≠ p) :
    l.map (fun e => if e.1 = p then (e.1, { e.2 with staged := b }) else e) = l := by
  induction l with
  | nil => rfl
  | cons e t ih =>
      simp only [List.map_cons]
      rw [if_neg (h e (List.mem_cons_self e t)),
        ih (fun x hx => h x (List.mem_cons_of_mem e hx))]

theorem map_ok_inv (s : USMBufferState) (off n : Nat) (a : Access) (k : Nat)
    (s' : USMBufferState)
    (h : USMBuffer.map s off n a = .ok (k, s')) :
    off + n ≤ USMBuffer.getByteSize s ∧ k = s.nextHostAddr ∧
    s' = { s with
      mappedRegions := (s.nextHostAddr,
        { devPtr := s.ptr + off, byteOffset := off, byteSize := n, access := a,
          staged := if a = Access.WriteDiscard then List.replicate n 0
                    else readBytes s.content off n }) :: s.mappedRegions
      nextHostAddr := s.nextHostAddr + 1 } := by
  unfold USMBuffer.map at h
  by_cases hb : USMBuffer.getByteSize s < off + n
  · rw [if_pos hb] at h
    exact absurd h (by simp)
  · rw [if_neg hb] at h
    simp only [Except.ok.injEq, Prod.mk.injEq] at h
    exact ⟨Nat.le_of_not_lt hb, h.1.symm, h.2.symm⟩

theorem unmap_ok_regions (s s' : USMBufferState) (k : Nat)
    (h : USMBuffer.unmap s k = .ok s') :
    s'.mappedRegions = s.mappedRegions.filter (fun e => e.1 != k) := by
  unfold USMBuffer.unmap at h
  cases hl : s.mappedRegions.lookup k with
  | none => rw [hl] at h; simp at h
  | some r =>
      rw [hl] at h
      simp only [Except.ok.injEq] at h
      subst h
      rfl

/-- C6: provided the host-address allocator is fresh (every outstanding key
is below the counter), the address returned by a successful `map` appears
exactly once in the table; after its matching `unmap` it appears zero
times; a repeated `map` (overlapping ranges permitted) returns a distinct
address and adds one further independent entry; and the table is empty
before the storage is freed or reallocated (`unmapAll`, and the state
`realloc` proceeds from). -/
theorem mapping_table_invariants (s s1 s2 : USMBufferState) (off n off2 n2 : Nat)
    (a a2 : Access) (k1 k2 : Nat)
    (hfresh : ∀ e ∈ s.mappedRegions, e.1 < s.nextHostAddr)
    (h1 : USMBuffer.map s off n a = .ok (k1, s1))
    (h2 : USMBuffer.map s1 off2 n2 a2 = .ok (k2, s2)) :
    (s1.mappedRegions.countP (fun e => e.1 == k1) = 1) ∧
    (∀ s', USMBuffer.unmap s1 k1 = .ok s' →
        s'.mappedRegions.countP (fun e => e.1 == k1) = 0) ∧
    k1 ≠ k2 ∧
    s2.mappedRegions.length = s.mappedRegions.length + 2 ∧
    (USMBuffer.unmapAll s1).mappedRegions = [] ∧
    (∀ p m, ((USMBuffer.realloc s1 m (some p)).2).mappedRegions = []) := by
  obtain ⟨hb1, rfl, rfl⟩ := map_ok_inv s off n a k1 s1 h1
  obtain ⟨hb2, rfl, rfl⟩ := map_ok_inv _ off2 n2 a2 k2 s2 h2
  refine ⟨?_, ?_, by simp, by simp, rfl, fun p m => rfl⟩
  · rw [List.countP_cons_of_pos _ _ (by simp),
      List.countP_eq_zero.mpr fun e he => by
        have := hfresh e he
        simp only [beq_iff_eq]
        omega]
  · intro s' h
    rw [unmap_ok_regions _ _ _ h]
    exact countP_filter_ne _ _

/-- The concrete state after mapping bytes [0, 4) of the sample buffer for
writing. -/
def wMap1 : USMBufferState :=
  { sampleBuf with
    mappedRegions := [(1000,
      { devPtr := 100, byteOffset := 0, byteSize := 4,
        access := Access.Write, staged := [1, 2, 3, 4] })]
    nextHostAddr := 1001 }

/-- The concrete state after a second, overlapping map of the same range. -/
def wMap2 : USMBufferState :=
  { sampleBuf with
    mappedRegions := [
      (1001, { devPtr := 100, byteOffset := 0, byteSize := 4,
               access := Access.Write, staged := [1, 2, 3, 4] }),
      (1000, { devPtr := 100, byteOffset := 0, byteSize := 4,
               access := Access.Write, staged := [1, 2, 3, 4] })]
    nextHostAddr := 1002 }

/-- Witness for C6: two overlapping maps of bytes [0, 4) of the sample
buffer yield distinct keys 1000 and 1001 and two independent entries. -/
theorem mapping_table_invariants_witness :
    (wMap1.mappedRegions.countP (fun e => e.1 == 1000) = 1) ∧
    (∀ s', USMBuffer.unmap wMap1 1000 = .ok s' →
        s'.mappedRegions.countP (fun e => e.1 == 1000) = 0) ∧
    (1000 : Nat) ≠ 1001 ∧
    wMap2.mappedRegions.length = sampleBuf.mappedRegions.length + 2 ∧
    (USMBuffer.unmapAll wMap1).mappedRegions = [] ∧
    (∀ p m, ((USMBuffer.realloc wMap1 m (some p)).2).mappedRegions = []) :=
  mapping_table_invariants sampleBuf wMap1 wMap2 0 4 0 4 Access.Write Access.Write
    1000 1001 (by simp [sampleBuf]) rfl rfl

/-- C7: destroying a `MappedBuffer` performs exactly one `unmap` of the
recorded address on its source buffer (removing exactly the entry its
construction added), and for a Write/ReadWrite mapping the bytes written
through the mapped address are then observable via `read` of the same range
on the source. -/
theorem mapped_destroy_unmaps_once_and_persists
    (s s1 s2 : USMBufferState) (mb : MappedBufferState)
    (off n : Nat) (bytes : List UInt8) (a : Access)
    (hacc : a = Access.Write ∨ a = Access.ReadWrite)
    (hfresh : ∀ e ∈ s.mappedRegions, e.1 < s.nextHostAddr)
    (hlen : bytes.length = n)
    (hcreate : MappedBuffer.create s off n a = .ok (mb, s1))
    (hwrite : USMBuffer.writeMapped s1 mb.ptr bytes = s2) :
    MappedBuffer.destroy mb s2 = USMBuffer.unmap s2 mb.ptr ∧
    ∃ s3, MappedBuffer.destroy mb s2 = .ok s3 ∧
      s3.mappedRegions.lookup mb.ptr = none ∧
      s3.mappedRegions = s.mappedRegions ∧
      USMBuffer.read s3 off n SyncMode.Sync = .ok bytes := by
  subst hlen
  refine ⟨rfl, ?_⟩
  unfold MappedBuffer.create at hcreate
  cases hm : USMBuffer.map s off bytes.length a with
  | error e => rw [hm] at hcreate; simp at hcreate
  | ok pr =>
    obtain ⟨k', s''⟩ := pr
    rw [hm] at hcreate
    simp only [Except.ok.injEq, Prod.mk.injEq] at hcreate
    obtain ⟨rfl, rfl⟩ := hcreate
    obtain ⟨hb1, rfl, rfl⟩ := map_ok_inv s off bytes.length a k' s'' hm
    have hb' : off + bytes.length ≤ s.content.length := hb1
    have hne : ∀ e ∈ s.mappedRegions, e.1 ≠ s.nextHostAddr :=
      fun e he => Nat.ne_of_lt (hfresh e he)
    have haccne : ¬ (a = Access.Read) := by rcases hacc with rfl | rfl <;> simp
    have hs2 : s2 = { s with
        mappedRegions := (s.nextHostAddr,
          { devPtr := s.ptr + off, byteOffset := off, byteSize := bytes.length, access := a,
            staged := bytes }) :: s.mappedRegions
        nextHostAddr := s.nextHostAddr + 1 } := by
      rw [← hwrite]
      unfold USMBuffer.writeMapped
      simp only [List.map_cons, ite_true, eq_self_iff_true, if_pos]
      rw [writeMapped_keys_id s.mappedRegions s.nextHostAddr bytes hne]
    refine ⟨{ s with content := writeBytes s.content off bytes
                     nextHostAddr := s.nextHostAddr + 1 }, ?_, ?_, rfl, ?_⟩
    · show USMBuffer.unmap s2 _ = _
      rw [hs2]
      simp [USMBuffer.unmap, List.lookup, haccne, List.filter_cons,
        filter_ne_eq_self s.mappedRegions s.nextHostAddr hne]
    · exact lookup_none_of_ne s.mappedRegions s.nextHostAddr hne
    · unfold USMBuffer.read
      rw [if_neg (by
        have hwl := writeBytes_length s.content off bytes hb'
        simp only [USMBuffer.getByteSize, hwl]
        exact Nat.not_lt.mpr hb')]
      rw [readBytes_writeBytes s.content off bytes hb']

/-- The mapped-window handle created by the C7 witness. -/
def wMB : MappedBufferState := { ptr := 1000, byteSize := 3 }

/-- Source state right after creating the C7 witness's mapped window over
bytes [2, 5). -/
def wS1 : USMBufferState :=
  { sampleBuf with
    mappedRegions := [(1000,
      { devPtr := 102, byteOffset := 2, byteSize := 3,
        access := Access.Write, staged := [3, 4, 5] })]
    nextHostAddr := 1001 }

/-- Source state after writing [7, 7, 7] through the mapped window. -/
def wS2 : USMBufferState :=
  { sampleBuf with
    mappedRegions := [(1000,
      { devPtr := 102, byteOffset := 2, byteSize := 3,
        access := Access.Write, staged := [7, 7, 7] })]
    nextHostAddr := 1001 }

/-- Witness for C7: map [2, 5) of the sample buffer for writing, store
[7, 7, 7] through the window, destroy the mapped buffer; the write is
persisted and the table entry released. -/
theorem mapped_destroy_unmaps_once_and_persists_witness :
    MappedBuffer.destroy wMB wS2 = USMBuffer.unmap wS2 wMB.ptr ∧
    ∃ s3, MappedBuffer.destroy wMB wS2 = .ok s3 ∧
      s3.mappedRegions.lookup wMB.ptr = none ∧
      s3.mappedRegions = sampleBuf.mappedRegions ∧
      USMBuffer.read s3 2 3 SyncMode.Sync = .ok [7, 7, 7] :=
  mapped_destroy_unmaps_once_and_persists sampleBuf wS1 wS2 wMB 2 3 [7, 7, 7]
    Access.Write (Or.inl rfl) (by simp [sampleBuf]) rfl rfl rfl

/-- C10: the base `Buffer::attach` and `Buffer::detach` hooks have empty
bodies and no subclass in this header overrides them, so attaching or
detaching a dependent — including via the `Memory` constructor and
destructor — leaves the buffer state (for both `USMBuffer` and
`MappedBuffer`) unchanged, and the buffer retains no record of the
dependent. -/
theorem attach_detach_noop (s : USMBufferState) (m m' : MemoryView)
    (mb : MappedBufferState) (off cached : Nat) :
    Buffer.attach s m = s ∧
    Buffer.detach s m = s ∧
    Buffer.attachMapped mb m = mb ∧
    Buffer.detachMapped mb m = mb ∧
    Buffer.detach (Buffer.attach s m) m' = s ∧
    (Memory.construct s off cached).2 = s ∧
    Memory.destruct s m = s :=
  ⟨rfl, rfl, rfl, rfl, rfl, rfl, rfl⟩

end OIDNBuf
